import Mathlib

/-!
Shallow embedding of the QuantumAItranslator translation provider
(`src/context/TranslationContext.tsx`, re-exported through the components
directory) together with the upload size gate (`src/components/Upload.tsx`)
and the scroll synchronisation of the side-by-side viewer
(`src/components/Translation.tsx`).

The browser runtime is made explicit:
* the network is a function `net : HTTPRequest → NetResult` supplied by the
  environment; every issued request is recorded in a trace list, in order;
* thrown JavaScript `Error` values become `Except String` with the thrown
  message as the payload;
* React state plus `localStorage` become an explicit `AppState` record; the
  `useEffect` persistence hooks run immediately after each state update, as
  React guarantees before the next user-visible operation;
* JavaScript falsiness of strings (`!s`, `s || d`) is modelled explicitly
  (empty string counts as falsy);
* image dimensions are rationals; the canvas JPEG re-encoding is kept
  abstract as a `CompressedImage` record (mime type, quality, dimensions),
  since the byte-level JPEG output is environment data.  The asynchronous
  canvas/FileReader failure callbacks and the post-encoding size re-check of
  `compressImage` depend on that environment data and are outside the
  deterministic data path modelled here.
-/

namespace QuantumTranslator

/-- Decidable equality for `Except`, to evaluate results on closed
inputs. -/
instance {ε α : Type} [DecidableEq ε] [DecidableEq α] :
    DecidableEq (Except ε α) := fun x y =>
  match x, y with
  | .ok a, .ok b =>
    if h : a = b then .isTrue (by rw [h]) else .isFalse (by simp [h])
  | .error a, .error b =>
    if h : a = b then .isTrue (by rw [h]) else .isFalse (by simp [h])
  | .ok _, .error _ => .isFalse (by simp)
  | .error _, .ok _ => .isFalse (by simp)

/-- Record stored in the translation history (interface `Translation`). -/
structure Translation where
  id : String
  fileName : String
  timestamp : String
  originalText : String
  translatedText : String
  targetLanguage : String
deriving DecidableEq, Repr

/-- API credentials (interface `GPTConfig`). -/
structure GPTConfig where
  apiKey : String
  baseUrl : String
deriving DecidableEq, Repr

/-- Shape of `error.response` on an axios error: HTTP status and the
optional `response.data?.error?.message` payload field. -/
structure AxiosResponse where
  status : Nat
  errorMessage : Option String
deriving DecidableEq, Repr

/-- Shape of an axios error as inspected by the catch block of
`makeGPTRequest`: optional `error.code` and optional `error.response`. -/
structure AxiosError where
  code : Option String
  response : Option AxiosResponse
deriving DecidableEq, Repr

/-- Error caught by `makeGPTRequest`: either an axios error
(`axios.isAxiosError(error)` true) or any other thrown value. -/
inductive RequestError where
  | axios : AxiosError → RequestError
  | nonAxios : RequestError
deriving DecidableEq, Repr

/-- JavaScript `m || d` for an optional string field: `undefined` and the
empty string are falsy and yield the default. -/
def orDefault (m : Option String) (d : String) : String :=
  match m with
  | none => d
  | some s => if s = "" then d else s

/-- JavaScript `m || d` for an optional number: `undefined` and `0` are
falsy and yield the default. -/
def orDefaultNat (m : Option Nat) (d : Nat) : Nat :=
  match m with
  | none => d
  | some n => if n = 0 then d else n

/-- Message of the `Error` thrown by the catch block of `makeGPTRequest`,
as a function of the shape of the caught error (source lines 201-224). -/
def mapRequestError : RequestError → String
  | .nonAxios => "发生未知错误，请重试"
  | .axios e =>
    match e.response with
    | none => "无法连接到服务器，请检查网络连接"
    | some r =>
      if e.code = some "ECONNABORTED" then "请求超时，请重试"
      else if r.status = 401 then "API Key 无效或已过期"
      else if r.status = 403 then "API Key 无访问权限"
      else if r.status = 429 then "请求过于频繁，请稍后重试"
      else if 500 ≤ r.status then "服务器错误，请稍后重试"
      else orDefault r.errorMessage "请求失败，请重试"

/-- Modelled from the words of claim C1: the error-message table the claim
states, with exactly the six axios cases it lists (no response; 401; 403;
429; status at least 500; otherwise server-provided message or default)
and the catch-all for non-axios errors.  Note the claim lists no case for
a timeout code. -/
def claimedErrorMessage : RequestError → String := fun err =>
  match err with
  | .nonAxios => "发生未知错误，请重试"
  | .axios e =>
    if e.response.isNone then "无法连接到服务器，请检查网络连接"
    else
      let r := e.response.getD ⟨0, none⟩
      if r.status = 401 then "API Key 无效或已过期"
      else if r.status = 403 then "API Key 无访问权限"
      else if r.status = 429 then "请求过于频繁，请稍后重试"
      else if 500 ≤ r.status then "服务器错误，请稍后重试"
      else orDefault r.errorMessage "请求失败，请重试"

/-- Claim C1 amended: the same table, except that an axios error that does
carry a response and whose `code` is `ECONNABORTED` maps to the timeout
message, this check taking precedence over the status-based cases. -/
def amendedErrorMessage : RequestError → String := fun err =>
  match err with
  | .nonAxios => "发生未知错误，请重试"
  | .axios e =>
    if e.response.isNone then "无法连接到服务器，请检查网络连接"
    else if e.code = some "ECONNABORTED" then "请求超时，请重试"
    else
      let r := e.response.getD ⟨0, none⟩
      if r.status = 401 then "API Key 无效或已过期"
      else if r.status = 403 then "API Key 无访问权限"
      else if r.status = 429 then "请求过于频繁，请稍后重试"
      else if 500 ≤ r.status then "服务器错误，请稍后重试"
      else orDefault r.errorMessage "请求失败，请重试"

/-- Constant `MAX_IMAGE_SIZE` (source line 50). -/
def MAX_IMAGE_SIZE : ℚ := 800

/-- Constant `JPEG_QUALITY` (source line 51). -/
def JPEG_QUALITY : ℚ := 6 / 10

/-- Constant `MAX_FILE_SIZE` (source line 52), in bytes. -/
def MAX_FILE_SIZE : Nat := 5 * 1024 * 1024

/-- Input file as seen by `processFile`: name, byte size, and the pixel
dimensions the browser decodes from it. -/
structure ImageFile where
  name : String
  size : Nat
  width : ℚ
  height : ℚ
deriving DecidableEq, Repr

/-- Result of the canvas re-encoding in `compressImage`: the data URL is
kept abstract as its mime type, encoder quality and pixel dimensions. -/
structure CompressedImage where
  mime : String
  quality : ℚ
  width : ℚ
  height : ℚ
deriving DecidableEq, Repr

/-- Scale factor applied by `compressImage` (source line 91). -/
def compressScale (w h : ℚ) : ℚ := min 1 (MAX_IMAGE_SIZE / max w h)

/-- Deterministic data path of `compressImage` (source lines 73-123): the
5MB gate, then the canvas downscale to JPEG at quality 0.6. -/
def compressImage (file : ImageFile) : Except String CompressedImage :=
  if MAX_FILE_SIZE < file.size then .error "图片大小不能超过 5MB"
  else
    let scale := compressScale file.width file.height
    .ok { mime := "image/jpeg", quality := JPEG_QUALITY,
          width := file.width * scale, height := file.height * scale }

/-- Content of one chat message: plain text, or the multimodal pair of a
text part and an `image_url` part carrying the compressed image. -/
inductive MessageContent where
  | text : String → MessageContent
  | imageParts : String → CompressedImage → MessageContent
deriving DecidableEq, Repr

/-- One entry of the `messages` array sent to the chat-completions API. -/
structure ChatMessage where
  role : String
  content : MessageContent
deriving DecidableEq, Repr

/-- Options argument of `makeGPTRequest` (source line 181). -/
structure RequestOptions where
  max_tokens : Option Nat
  model : Option String
deriving DecidableEq, Repr

/-- HTTP POST request as assembled by `makeGPTRequest`
(source lines 183-198). -/
structure HTTPRequest where
  url : String
  model : String
  messages : List ChatMessage
  temperature : ℚ
  max_tokens : Nat
  authorization : String
  contentType : String
deriving DecidableEq, Repr

/-- Request body and headers built by `makeGPTRequest` from the config,
the messages and the options. -/
def buildRequest (cfg : GPTConfig) (messages : List ChatMessage)
    (opts : RequestOptions) : HTTPRequest :=
  { url := cfg.baseUrl ++ "/v1/chat/completions"
    model := orDefault opts.model "gpt-4o-mini"
    messages := messages
    temperature := 3 / 10
    max_tokens := orDefaultNat opts.max_tokens 2000
    authorization := "Bearer " ++ cfg.apiKey
    contentType := "application/json" }

/-- Outcome the network environment delivers for a request: a response
whose content chain is the optional string (a missing link modelled as
`none`), or a thrown error of the given shape. -/
inductive NetResult where
  | success : Option String → NetResult
  | failure : RequestError → NetResult
deriving DecidableEq, Repr

/-- Embedding of `makeGPTRequest` (source lines 181-225).  Returns the
response data (its content chain) or the mapped error message, paired with
the trace of requests actually issued to the network. -/
def makeGPTRequest (cfg : GPTConfig) (net : HTTPRequest → NetResult)
    (messages : List ChatMessage) (opts : RequestOptions) :
    Except String (Option String) × List HTTPRequest :=
  let req := buildRequest cfg messages opts
  match net req with
  | .success data => (.ok data, [req])
  | .failure e => (.error (mapRequestError e), [req])

/-- Apostrophe character, for building the refusal patterns. -/
def apos : String := String.singleton (Char.ofNat 39)

/-- Whether the first character list is a prefix of the second. -/
def charsStartWith : List Char → List Char → Bool
  | [], _ => true
  | _ :: _, [] => false
  | a :: as, b :: bs => a = b && charsStartWith as bs

/-- Whether the first character list occurs inside the second. -/
def charsContain (pat : List Char) : List Char → Bool
  | [] => charsStartWith pat []
  | b :: bs => charsStartWith pat (b :: bs) || charsContain pat bs

/-- Test that the lowered content contains the lowered pattern, i.e. the
case-insensitive substring test performed by each refusal regex. -/
def containsCI (content pat : String) : Bool :=
  charsContain (pat.data.map Char.toLower) (content.data.map Char.toLower)

/-- Disjunction of the four refusal regexes of `validateGPTResponse`
(source lines 132-137), expanded into their alternatives. -/
def hasRejectPattern (content : String) : Bool :=
  containsCI content ("i" ++ apos ++ "m sorry")
    || containsCI content "i am sorry"
    || containsCI content "i cannot"
    || containsCI content ("i can" ++ apos ++ "t")
    || containsCI content "unable to"
    || containsCI content "not able to"
    || containsCI content "not allowed to"

/-- JavaScript whitespace-only test `!text.trim()`: true when every
character is whitespace (the common ASCII whitespace characters). -/
def isBlank (s : String) : Bool :=
  s.data.all fun c => c = ' ' || c = Char.ofNat 9 || c = Char.ofNat 10 || c = Char.ofNat 13

/-- Embedding of `validateGPTResponse` (source lines 125-144): the content
chain must be present and truthy (the empty string is falsy in the guard),
and must match none of the refusal patterns. -/
def validateGPTResponse (data : Option String) : Except String String :=
  match data with
  | none => .error "API 返回的响应格式无效"
  | some content =>
    if content = "" then .error "API 返回的响应格式无效"
    else if hasRejectPattern content then .error "模型无法处理该请求，请重试"
    else .ok content

/-- Escape of one character inside a JSON string literal, as performed by
`JSON.stringify` for the characters that can appear here. -/
def escChar (c : Char) : String :=
  if c = '"' then "\\\""
  else if c = '\\' then "\\\\"
  else if c = '\n' then "\\n"
  else if c = '\r' then "\\r"
  else if c = '\t' then "\\t"
  else String.singleton c

/-- JSON string literal for a Lean string. -/
def jsonString (s : String) : String :=
  "\"" ++ String.join (s.data.map escChar) ++ "\""

/-- JSON object `JSON.stringify` produces for one `Translation` record
(fields in declaration order, as serialised from the object literal). -/
def translationToJSON (t : Translation) : String :=
  "\x7b\"id\":" ++ jsonString t.id
    ++ ",\"fileName\":" ++ jsonString t.fileName
    ++ ",\"timestamp\":" ++ jsonString t.timestamp
    ++ ",\"originalText\":" ++ jsonString t.originalText
    ++ ",\"translatedText\":" ++ jsonString t.translatedText
    ++ ",\"targetLanguage\":" ++ jsonString t.targetLanguage
    ++ "\x7d"

/-- JSON array `JSON.stringify` produces for the translations list. -/
def translationsToJSON (ts : List Translation) : String :=
  "[" ++ String.intercalate "," (ts.map translationToJSON) ++ "]"

/-- JSON object `JSON.stringify` produces for the `GPTConfig` record. -/
def gptConfigToJSON (c : GPTConfig) : String :=
  "\x7b\"apiKey\":" ++ jsonString c.apiKey
    ++ ",\"baseUrl\":" ++ jsonString c.baseUrl ++ "\x7d"

/-- Combined React + browser state of the provider: the two `useState`
values and the `localStorage` key-value blob. -/
structure AppState where
  translations : List Translation
  gptConfig : GPTConfig
  storage : String → Option String

/-- `localStorage.setItem`: update one key, leave every other key as it
was. -/
def setItem (st : String → Option String) (k v : String) :
    String → Option String :=
  fun q => if q = k then some v else st q

/-- Persistence `useEffect` for the translations list (source lines
159-161): `saveToStorage` on the translations key. -/
def saveTranslationsEffect (s : AppState) : AppState :=
  { s with storage :=
      setItem s.storage "translations" (translationsToJSON s.translations) }

/-- Persistence `useEffect` for the config (source lines 164-166):
`saveToStorage` on the gptConfig key. -/
def saveConfigEffect (s : AppState) : AppState :=
  { s with storage :=
      setItem s.storage "gptConfig" (gptConfigToJSON s.gptConfig) }

/-- `addTranslation` (source lines 168-170) followed by the persistence
effect React runs after the state update. -/
def addTranslation (t : Translation) (s : AppState) : AppState :=
  saveTranslationsEffect { s with translations := t :: s.translations }

/-- `removeTranslation` (source lines 172-174) followed by the persistence
effect: keep exactly the records whose id differs from the argument. -/
def removeTranslation (id : String) (s : AppState) : AppState :=
  saveTranslationsEffect
    { s with translations := s.translations.filter (fun t => t.id ≠ id) }

/-- Drop a final slash character from a character list, if present. -/
def dropTrailingSlashChars : List Char → List Char
  | [] => []
  | [c] => if c = '/' then [] else [c]
  | c :: c2 :: rest => c :: dropTrailingSlashChars (c2 :: rest)

/-- Regex `/\/$/` replacement in `updateGPTConfig`: drop one trailing
slash if present. -/
def stripTrailingSlash (s : String) : String :=
  ⟨dropTrailingSlashChars s.data⟩

/-- `updateGPTConfig` (source lines 176-179) followed by the persistence
effect. -/
def updateGPTConfig (c : GPTConfig) (s : AppState) : AppState :=
  saveConfigEffect
    { s with gptConfig :=
        { apiKey := c.apiKey, baseUrl := stripTrailingSlash c.baseUrl } }

/-- System prompt of the translation request, with the target language
interpolated (source lines 236-243 and 320-327; the two occurrences are
identical). -/
def translateSystemPrompt (targetLanguage : String) : String :=
  "你是一位专业翻译。请将以下文本翻译成" ++ targetLanguage ++ "。\n重要提示：\n1. 必须严格保持原文的所有格式，包括换行、空格、缩进等\n2. 不要改变原文的段落结构和布局\n3. 保持专业术语的准确性\n4. 确保翻译自然、地道\n5. 不要添加任何额外的解释或注释\n6. 直接返回翻译结果，不要包含任何其他内容"

/-- Messages array of a translation request. -/
def translateMessages (targetLanguage text : String) : List ChatMessage :=
  [⟨"system", .text (translateSystemPrompt targetLanguage)⟩,
   ⟨"user", .text text⟩]

/-- System prompt of the OCR request (source lines 276-282). -/
def ocrSystemPrompt : String :=
  "你是一位专业的 OCR 专家。请提取图片中的文字。\n重要提示：\n1. 必须严格保持原文的所有格式，包括换行、空格、缩进等\n2. 保持段落结构和文本布局\n3. 不要添加任何解释或修改\n4. 只返回提取的原始文字，不要包含任何其他内容\n5. 如果图片中没有文字，请返回空字符串"

/-- Messages array of the OCR request: the system prompt plus the
multimodal user message carrying the compressed image (source lines
284-298). -/
def ocrMessages (img : CompressedImage) : List ChatMessage :=
  [⟨"system", .text ocrSystemPrompt⟩,
   ⟨"user", .imageParts "请提取这张图片中的所有文字，保持原有格式：" img⟩]

/-- Options of the OCR request (source line 299). -/
def ocrOptions : RequestOptions := ⟨some 1000, some "gpt-4o"⟩

/-- Options of the translation requests (defaults). -/
def translateOptions : RequestOptions := ⟨none, none⟩

/-- Outcome of one provider operation: the returned value or thrown
message, the provider state after the call, and the trace of HTTP
requests issued during the call, in order. -/
structure OpResult (α : Type) where
  result : Except String α
  state : AppState
  trace : List HTTPRequest

/-- Embedding of `processText` (source lines 227-270), with the state and
request trace made explicit.  `!gptConfig.apiKey` is the empty-string
test; `addTranslation` runs only on the success path, right before the
record is returned. -/
def processText (net : HTTPRequest → NetResult) (nowId nowTs : String)
    (text targetLanguage : String) (s : AppState) : OpResult Translation :=
  if s.gptConfig.apiKey = "" then ⟨.error "请先配置 API Key", s, []⟩
  else
    match makeGPTRequest s.gptConfig net
        (translateMessages targetLanguage text) translateOptions with
    | (.error m, tr) => ⟨.error m, s, tr⟩
    | (.ok data, tr) =>
      match validateGPTResponse data with
      | .error m => ⟨.error m, s, tr⟩
      | .ok translatedText =>
        let record : Translation :=
          ⟨nowId, "文本翻译", nowTs, text, translatedText, targetLanguage⟩
        ⟨.ok record, addTranslation record s, tr⟩

/-- Embedding of `extractTextFromImage` (source lines 272-302): one OCR
request, validated. -/
def extractTextFromImage (cfg : GPTConfig) (net : HTTPRequest → NetResult)
    (base64Image : CompressedImage) :
    Except String String × List HTTPRequest :=
  match makeGPTRequest cfg net (ocrMessages base64Image) ocrOptions with
  | (.error m, tr) => (.error m, tr)
  | (.ok data, tr) => (validateGPTResponse data, tr)

/-- Embedding of `processFile` (source lines 304-354): config gate, image
compression, OCR extraction, empty-text gate, translation request,
validation, and only then the history update. -/
def processFile (net : HTTPRequest → NetResult) (nowId nowTs : String)
    (file : ImageFile) (targetLanguage : String) (s : AppState) :
    OpResult Translation :=
  if s.gptConfig.apiKey = "" then ⟨.error "请先配置 API Key", s, []⟩
  else
    match compressImage file with
    | .error m => ⟨.error m, s, []⟩
    | .ok base64Image =>
      match extractTextFromImage s.gptConfig net base64Image with
      | (.error m, tr1) => ⟨.error m, s, tr1⟩
      | (.ok originalText, tr1) =>
        if isBlank originalText then
          ⟨.error "未能从图片中提取到文字，请确保图片包含清晰的文本", s, tr1⟩
        else
          match makeGPTRequest s.gptConfig net
              (translateMessages targetLanguage originalText)
              translateOptions with
          | (.error m, tr2) => ⟨.error m, s, tr1 ++ tr2⟩
          | (.ok data, tr2) =>
            match validateGPTResponse data with
            | .error m => ⟨.error m, s, tr1 ++ tr2⟩
            | .ok translatedText =>
              let record : Translation :=
                ⟨nowId, file.name, nowTs, originalText, translatedText,
                 targetLanguage⟩
              ⟨.ok record, addTranslation record s, tr1 ++ tr2⟩

/-- Size gate of the `onDrop` callback in the Upload component
(`src/components/Upload.tsx` lines 30-33): files above 20MB are rejected
with an error message before `processFile` is ever called. -/
def onDropSizeError (file : ImageFile) : Option String :=
  if 20 * 1024 * 1024 < file.size then some "文件大小不能超过 20MB" else none

/-- Scroll synchronisation of the side-by-side viewer
(`src/components/Translation.tsx` lines 202-207): the new `scrollTop` of
the target pane as a function of the source pane metrics and the target
pane metrics. -/
def syncScroll (sourceScrollTop sourceScrollHeight sourceClientHeight
    targetScrollHeight targetClientHeight : ℚ) : ℚ :=
  sourceScrollTop / (sourceScrollHeight - sourceClientHeight)
    * (targetScrollHeight - targetClientHeight)

/-- Invariant of claim C3: the two storage keys hold exactly the JSON
serialisation of the current in-memory state. -/
def persisted (s : AppState) : Prop :=
  s.storage "translations" = some (translationsToJSON s.translations)
    ∧ s.storage "gptConfig" = some (gptConfigToJSON s.gptConfig)

/-! Concrete values used to evaluate the definitions on closed inputs. -/

/-- Axios error carrying a response with status 400 and the timeout code. -/
def econnEx : RequestError := .axios ⟨some "ECONNABORTED", some ⟨400, none⟩⟩

/-- Concrete configuration with a non-empty key. -/
def cfgEx : GPTConfig := ⟨"key", "https://api.example.com"⟩

/-- Concrete messages array. -/
def mEx : List ChatMessage := translateMessages "fr" "Hello"

/-- Network that fails every request with `econnEx`. -/
def failNetEx : HTTPRequest → NetResult := fun _ => .failure econnEx

/-- Network that answers every request with a fixed content string. -/
def okNetEx : HTTPRequest → NetResult := fun _ => .success (some "Bonjour")

/-- Network that answers the OCR request (model `gpt-4o`) and the
translation request (default model) with different content. -/
def twoPhaseNet : HTTPRequest → NetResult := fun r =>
  if r.model = "gpt-4o" then .success (some "Ocr text")
  else .success (some "Texte traduit")

/-- Concrete history record. -/
def trEx : Translation := ⟨"1", "a.png", "t0", "hi", "salut", "fr"⟩

/-- Concrete state whose storage already mirrors its in-memory state. -/
def st0 : AppState :=
  { translations := []
    gptConfig := cfgEx
    storage := fun k =>
      if k = "translations" then some (translationsToJSON [])
      else if k = "gptConfig" then some (gptConfigToJSON cfgEx)
      else none }

/-- Concrete state with one history record. -/
def stEx : AppState := ⟨[trEx], cfgEx, fun _ => none⟩

/-- Concrete state whose API key is empty. -/
def emptyKeySt : AppState := ⟨[], ⟨"", "https://api.example.com"⟩, fun _ => none⟩

/-- Concrete 1000 by 500 image file of 1024 bytes. -/
def fileEx : ImageFile := ⟨"scan.png", 1024, 1000, 500⟩

/-- Compression result for `fileEx`: scale 4 / 5. -/
def imgEx : CompressedImage := ⟨"image/jpeg", 6 / 10, 800, 400⟩

/-- Concrete 6MB image file: above the 5MB gate, below the 20MB gate. -/
def bigFileEx : ImageFile := ⟨"big.png", 6 * 1024 * 1024, 1000, 500⟩

/-! Helper lemmas shared by several claims. -/

/-- Characterisation of `makeGPTRequest`: it issues exactly the one built
request, and returns the response data on success and the mapped message
on failure. -/
theorem makeGPTRequest_spec (cfg : GPTConfig) (net : HTTPRequest → NetResult)
    (messages : List ChatMessage) (opts : RequestOptions) :
    (makeGPTRequest cfg net messages opts).2 = [buildRequest cfg messages opts]
  ∧ ((∃ d, net (buildRequest cfg messages opts) = .success d
        ∧ (makeGPTRequest cfg net messages opts).1 = .ok d)
    ∨ (∃ e, net (buildRequest cfg messages opts) = .failure e
        ∧ (makeGPTRequest cfg net messages opts).1
            = .error (mapRequestError e))) := by
  unfold makeGPTRequest
  cases hn : net (buildRequest cfg messages opts) <;> simp [hn]

/-- Rebuild a `makeGPTRequest` value from its two projections. -/
theorem makeGPTRequest_eta (cfg : GPTConfig) (net : HTTPRequest → NetResult)
    (messages : List ChatMessage) (opts : RequestOptions) :
    makeGPTRequest cfg net messages opts
      = ((makeGPTRequest cfg net messages opts).1,
         (makeGPTRequest cfg net messages opts).2) := rfl

/-- Characterisation of `extractTextFromImage`: it issues exactly the OCR
request, and returns the validated response content. -/
theorem extractTextFromImage_spec (cfg : GPTConfig)
    (net : HTTPRequest → NetResult) (img : CompressedImage) :
    (extractTextFromImage cfg net img).2
        = [buildRequest cfg (ocrMessages img) ocrOptions]
  ∧ ((∃ d, net (buildRequest cfg (ocrMessages img) ocrOptions) = .success d
        ∧ (extractTextFromImage cfg net img).1 = validateGPTResponse d)
    ∨ (∃ e, net (buildRequest cfg (ocrMessages img) ocrOptions) = .failure e
        ∧ (extractTextFromImage cfg net img).1
            = .error (mapRequestError e))) := by
  obtain ⟨htr, hres⟩ := makeGPTRequest_spec cfg net (ocrMessages img) ocrOptions
  rcases hres with ⟨d, hn, hr⟩ | ⟨e, hn, hr⟩
  · have hm : makeGPTRequest cfg net (ocrMessages img) ocrOptions
        = (.ok d, [buildRequest cfg (ocrMessages img) ocrOptions]) := by
      rw [makeGPTRequest_eta cfg net (ocrMessages img) ocrOptions, hr, htr]
    constructor
    · simp [extractTextFromImage, hm]
    · exact Or.inl ⟨d, hn, by simp [extractTextFromImage, hm]⟩
  · have hm : makeGPTRequest cfg net (ocrMessages img) ocrOptions
        = (.error (mapRequestError e),
           [buildRequest cfg (ocrMessages img) ocrOptions]) := by
      rw [makeGPTRequest_eta cfg net (ocrMessages img) ocrOptions, hr, htr]
    constructor
    · simp [extractTextFromImage, hm]
    · exact Or.inr ⟨e, hn, by simp [extractTextFromImage, hm]⟩

/-- Rebuild an `extractTextFromImage` value from its two projections. -/
theorem extractTextFromImage_eta (cfg : GPTConfig)
    (net : HTTPRequest → NetResult) (img : CompressedImage) :
    extractTextFromImage cfg net img
      = ((extractTextFromImage cfg net img).1,
         (extractTextFromImage cfg net img).2) := rfl

/-- Every run of `processText` either throws and leaves the state intact,
or returns a record and prepends exactly that record. -/
theorem processText_state_spec (net : HTTPRequest → NetResult)
    (nowId nowTs text lang : String) (s : AppState) :
    (∃ m, (processText net nowId nowTs text lang s).result = .error m
        ∧ (processText net nowId nowTs text lang s).state = s)
  ∨ (∃ record, (processText net nowId nowTs text lang s).result = .ok record
        ∧ (processText net nowId nowTs text lang s).state
            = addTranslation record s) := by
  by_cases hk : s.gptConfig.apiKey = ""
  · exact Or.inl ⟨"请先配置 API Key", by simp [processText, hk],
      by simp [processText, hk]⟩
  · obtain ⟨htr, hres⟩ :=
      makeGPTRequest_spec s.gptConfig net (translateMessages lang text)
        translateOptions
    rcases hres with ⟨d, _, hr⟩ | ⟨e, _, hr⟩
    · have hm : makeGPTRequest s.gptConfig net (translateMessages lang text)
          translateOptions
          = (.ok d, [buildRequest s.gptConfig (translateMessages lang text)
              translateOptions]) := by
        have hx := makeGPTRequest_eta s.gptConfig net
          (translateMessages lang text) translateOptions
        rw [hr, htr] at hx
        exact hx
      cases hv : validateGPTResponse d with
      | error m =>
        exact Or.inl ⟨m, by simp [processText, hk, hm, hv],
          by simp [processText, hk, hm, hv]⟩
      | ok t =>
        exact Or.inr ⟨⟨nowId, "文本翻译", nowTs, text, t, lang⟩,
          by simp [processText, hk, hm, hv],
          by simp [processText, hk, hm, hv]⟩
    · have hm : makeGPTRequest s.gptConfig net (translateMessages lang text)
          translateOptions
          = (.error (mapRequestError e),
             [buildRequest s.gptConfig (translateMessages lang text)
              translateOptions]) := by
        have hx := makeGPTRequest_eta s.gptConfig net
          (translateMessages lang text) translateOptions
        rw [hr, htr] at hx
        exact hx
      exact Or.inl ⟨mapRequestError e, by simp [processText, hk, hm],
        by simp [processText, hk, hm]⟩

/-- Every run of `processFile` either throws and leaves the state intact,
or returns a record and prepends exactly that record. -/
theorem processFile_state_spec (net : HTTPRequest → NetResult)
    (nowId nowTs : String) (file : ImageFile) (lang : String)
    (s : AppState) :
    (∃ m, (processFile net nowId nowTs file lang s).result = .error m
        ∧ (processFile net nowId nowTs file lang s).state = s)
  ∨ (∃ record, (processFile net nowId nowTs file lang s).result = .ok record
        ∧ (processFile net nowId nowTs file lang s).state
            = addTranslation record s) := by
  by_cases hk : s.gptConfig.apiKey = ""
  · exact Or.inl ⟨"请先配置 API Key", by simp [processFile, hk],
      by simp [processFile, hk]⟩
  cases hcomp : compressImage file with
  | error m =>
    exact Or.inl ⟨m, by simp [processFile, hk, hcomp],
      by simp [processFile, hk, hcomp]⟩
  | ok img =>
  obtain ⟨etr, eres⟩ := extractTextFromImage_spec s.gptConfig net img
  rcases eres with ⟨d, _, hr⟩ | ⟨e, _, hr⟩
  · cases hv : validateGPTResponse d with
    | error m =>
      have hE : extractTextFromImage s.gptConfig net img
          = (.error m, [buildRequest s.gptConfig (ocrMessages img)
              ocrOptions]) := by
        have hx := extractTextFromImage_eta s.gptConfig net img
        rw [hr, hv, etr] at hx
        exact hx
      exact Or.inl ⟨m, by simp [processFile, hk, hcomp, hE],
        by simp [processFile, hk, hcomp, hE]⟩
    | ok text =>
      have hE : extractTextFromImage s.gptConfig net img
          = (.ok text, [buildRequest s.gptConfig (ocrMessages img)
              ocrOptions]) := by
        have hx := extractTextFromImage_eta s.gptConfig net img
        rw [hr, hv, etr] at hx
        exact hx
      by_cases htrim : isBlank text = true
      · exact Or.inl ⟨"未能从图片中提取到文字，请确保图片包含清晰的文本",
          by simp [processFile, hk, hcomp, hE, htrim],
          by simp [processFile, hk, hcomp, hE, htrim]⟩
      · obtain ⟨htr2, hres2⟩ :=
          makeGPTRequest_spec s.gptConfig net (translateMessages lang text)
            translateOptions
        rcases hres2 with ⟨d2, _, hr2⟩ | ⟨e2, _, hr2⟩
        · have hm2 : makeGPTRequest s.gptConfig net
              (translateMessages lang text) translateOptions
              = (.ok d2, [buildRequest s.gptConfig
                  (translateMessages lang text) translateOptions]) := by
            have hx := makeGPTRequest_eta s.gptConfig net
              (translateMessages lang text) translateOptions
            rw [hr2, htr2] at hx
            exact hx
          cases hv2 : validateGPTResponse d2 with
          | error m2 =>
            exact Or.inl ⟨m2,
              by simp [processFile, hk, hcomp, hE, htrim, hm2, hv2],
              by simp [processFile, hk, hcomp, hE, htrim, hm2, hv2]⟩
          | ok t2 =>
            exact Or.inr ⟨⟨nowId, file.name, nowTs, text, t2, lang⟩,
              by simp [processFile, hk, hcomp, hE, htrim, hm2, hv2],
              by simp [processFile, hk, hcomp, hE, htrim, hm2, hv2]⟩
        · have hm2 : makeGPTRequest s.gptConfig net
              (translateMessages lang text) translateOptions
              = (.error (mapRequestError e2), [buildRequest s.gptConfig
                  (translateMessages lang text) translateOptions]) := by
            have hx := makeGPTRequest_eta s.gptConfig net
              (translateMessages lang text) translateOptions
            rw [hr2, htr2] at hx
            exact hx
          exact Or.inl ⟨mapRequestError e2,
            by simp [processFile, hk, hcomp, hE, htrim, hm2],
            by simp [processFile, hk, hcomp, hE, htrim, hm2]⟩
  · have hE : extractTextFromImage s.gptConfig net img
        = (.error (mapRequestError e), [buildRequest s.gptConfig
            (ocrMessages img) ocrOptions]) := by
      have hx := extractTextFromImage_eta s.gptConfig net img
      rw [hr, etr] at hx
      exact hx
    exact Or.inl ⟨mapRequestError e, by simp [processFile, hk, hcomp, hE],
      by simp [processFile, hk, hcomp, hE]⟩

/-- Successful runs of `processFile` issue exactly the OCR request and
then the translation request, and the returned record is assembled from
the validated responses. -/
theorem processFile_ok_spec (net : HTTPRequest → NetResult)
    (nowId nowTs : String) (file : ImageFile) (lang : String) (s : AppState)
    (record : Translation)
    (h : (processFile net nowId nowTs file lang s).result = .ok record) :
    ∃ img d1 d2,
      compressImage file = .ok img
      ∧ net (buildRequest s.gptConfig (ocrMessages img) ocrOptions)
          = .success d1
      ∧ validateGPTResponse d1 = .ok record.originalText
      ∧ isBlank record.originalText = false
      ∧ net (buildRequest s.gptConfig
            (translateMessages lang record.originalText) translateOptions)
          = .success d2
      ∧ validateGPTResponse d2 = .ok record.translatedText
      ∧ record.id = nowId ∧ record.fileName = file.name
      ∧ record.timestamp = nowTs ∧ record.targetLanguage = lang
      ∧ (processFile net nowId nowTs file lang s).trace
          = [buildRequest s.gptConfig (ocrMessages img) ocrOptions,
             buildRequest s.gptConfig
               (translateMessages lang record.originalText)
               translateOptions] := by
  by_cases hk : s.gptConfig.apiKey = ""
  · simp [processFile, hk] at h
  cases hcomp : compressImage file with
  | error m => simp [processFile, hk, hcomp] at h
  | ok img =>
  obtain ⟨etr, eres⟩ := extractTextFromImage_spec s.gptConfig net img
  rcases eres with ⟨d, hn, hr⟩ | ⟨e, hn, hr⟩
  · cases hv : validateGPTResponse d with
    | error m =>
      have hE : extractTextFromImage s.gptConfig net img
          = (.error m, [buildRequest s.gptConfig (ocrMessages img)
              ocrOptions]) := by
        have hx := extractTextFromImage_eta s.gptConfig net img
        rw [hr, hv, etr] at hx
        exact hx
      simp [processFile, hk, hcomp, hE] at h
    | ok text =>
      have hE : extractTextFromImage s.gptConfig net img
          = (.ok text, [buildRequest s.gptConfig (ocrMessages img)
              ocrOptions]) := by
        have hx := extractTextFromImage_eta s.gptConfig net img
        rw [hr, hv, etr] at hx
        exact hx
      by_cases htrim : isBlank text = true
      · simp [processFile, hk, hcomp, hE, htrim] at h
      · obtain ⟨htr2, hres2⟩ :=
          makeGPTRequest_spec s.gptConfig net (translateMessages lang text)
            translateOptions
        rcases hres2 with ⟨d2, hn2, hr2⟩ | ⟨e2, hn2, hr2⟩
        · have hm2 : makeGPTRequest s.gptConfig net
              (translateMessages lang text) translateOptions
              = (.ok d2, [buildRequest s.gptConfig
                  (translateMessages lang text) translateOptions]) := by
            have hx := makeGPTRequest_eta s.gptConfig net
              (translateMessages lang text) translateOptions
            rw [hr2, htr2] at hx
            exact hx
          cases hv2 : validateGPTResponse d2 with
          | error m2 => simp [processFile, hk, hcomp, hE, htrim, hm2, hv2] at h
          | ok t2 =>
            have hrec : record = ⟨nowId, file.name, nowTs, text, t2, lang⟩ := by
              have := h
              simp [processFile, hk, hcomp, hE, htrim, hm2, hv2] at this
              exact this.symm
            refine ⟨img, d, d2, rfl, hn, ?_, ?_, ?_, ?_, ?_, ?_, ?_, ?_, ?_⟩
            · rw [hrec]; exact hv
            · rw [hrec]
              simpa using htrim
            · rw [hrec]; exact hn2
            · rw [hrec]; exact hv2
            · rw [hrec]
            · rw [hrec]
            · rw [hrec]
            · rw [hrec]
            · rw [hrec]
              simp [processFile, hk, hcomp, hE, htrim, hm2, hv2]
        · have hm2 : makeGPTRequest s.gptConfig net
              (translateMessages lang text) translateOptions
              = (.error (mapRequestError e2), [buildRequest s.gptConfig
                  (translateMessages lang text) translateOptions]) := by
            have hx := makeGPTRequest_eta s.gptConfig net
              (translateMessages lang text) translateOptions
            rw [hr2, htr2] at hx
            exact hx
          simp [processFile, hk, hcomp, hE, htrim, hm2] at h
  · have hE : extractTextFromImage s.gptConfig net img
        = (.error (mapRequestError e), [buildRequest s.gptConfig
            (ocrMessages img) ocrOptions]) := by
      have hx := extractTextFromImage_eta s.gptConfig net img
      rw [hr, etr] at hx
      exact hx
    simp [processFile, hk, hcomp, hE] at h

/-- When the key is configured and compression succeeds, the first request
`processFile` issues is always the OCR request carrying the compressed
image, whatever the network then does. -/
theorem processFile_trace_head (net : HTTPRequest → NetResult)
    (nowId nowTs : String) (file : ImageFile) (lang : String) (s : AppState)
    (img : CompressedImage)
    (hk : s.gptConfig.apiKey ≠ "") (hcomp : compressImage file = .ok img) :
    ∃ rest, (processFile net nowId nowTs file lang s).trace
      = buildRequest s.gptConfig (ocrMessages img) ocrOptions :: rest := by
  obtain ⟨etr, eres⟩ := extractTextFromImage_spec s.gptConfig net img
  rcases eres with ⟨d, _, hr⟩ | ⟨e, _, hr⟩
  · cases hv : validateGPTResponse d with
    | error m =>
      have hE : extractTextFromImage s.gptConfig net img
          = (.error m, [buildRequest s.gptConfig (ocrMessages img)
              ocrOptions]) := by
        have hx := extractTextFromImage_eta s.gptConfig net img
        rw [hr, hv, etr] at hx
        exact hx
      exact ⟨[], by simp [processFile, hk, hcomp, hE]⟩
    | ok text =>
      have hE : extractTextFromImage s.gptConfig net img
          = (.ok text, [buildRequest s.gptConfig (ocrMessages img)
              ocrOptions]) := by
        have hx := extractTextFromImage_eta s.gptConfig net img
        rw [hr, hv, etr] at hx
        exact hx
      by_cases htrim : isBlank text = true
      · exact ⟨[], by simp [processFile, hk, hcomp, hE, htrim]⟩
      · obtain ⟨htr2, hres2⟩ :=
          makeGPTRequest_spec s.gptConfig net (translateMessages lang text)
            translateOptions
        rcases hres2 with ⟨d2, _, hr2⟩ | ⟨e2, _, hr2⟩
        · have hm2 : makeGPTRequest s.gptConfig net
              (translateMessages lang text) translateOptions
              = (.ok d2, [buildRequest s.gptConfig
                  (translateMessages lang text) translateOptions]) := by
            have hx := makeGPTRequest_eta s.gptConfig net
              (translateMessages lang text) translateOptions
            rw [hr2, htr2] at hx
            exact hx
          cases hv2 : validateGPTResponse d2 with
          | error m2 =>
            exact ⟨[buildRequest s.gptConfig (translateMessages lang text)
              translateOptions],
              by simp [processFile, hk, hcomp, hE, htrim, hm2, hv2]⟩
          | ok t2 =>
            exact ⟨[buildRequest s.gptConfig (translateMessages lang text)
              translateOptions],
              by simp [processFile, hk, hcomp, hE, htrim, hm2, hv2]⟩
        · have hm2 : makeGPTRequest s.gptConfig net
              (translateMessages lang text) translateOptions
              = (.error (mapRequestError e2), [buildRequest s.gptConfig
                  (translateMessages lang text) translateOptions]) := by
            have hx := makeGPTRequest_eta s.gptConfig net
              (translateMessages lang text) translateOptions
            rw [hr2, htr2] at hx
            exact hx
          exact ⟨[buildRequest s.gptConfig (translateMessages lang text)
            translateOptions],
            by simp [processFile, hk, hcomp, hE, htrim, hm2]⟩
  · have hE : extractTextFromImage s.gptConfig net img
        = (.error (mapRequestError e), [buildRequest s.gptConfig
            (ocrMessages img) ocrOptions]) := by
      have hx := extractTextFromImage_eta s.gptConfig net img
      rw [hr, etr] at hx
      exact hx
    exact ⟨[], by simp [processFile, hk, hcomp, hE]⟩

/-! Claim theorems. -/

/-- C1 (counterexample): the claimed error-message table misses the
timeout branch of the catch block.  On an axios error that carries a
response (status 400, no server message) together with the code
`ECONNABORTED`, the code throws the timeout message while the claim
prescribes the generic fallback, so the claimed table differs from the
code. -/
theorem C1_counterexample :
    mapRequestError econnEx = "请求超时，请重试"
  ∧ claimedErrorMessage econnEx = "请求失败，请重试"
  ∧ mapRequestError econnEx ≠ claimedErrorMessage econnEx := by
  refine ⟨rfl, rfl, ?_⟩
  decide

/-- C1 (amended): every error caught in `makeGPTRequest` is rethrown as an
`Error` whose message is given by the claimed table extended with the one
missing case (an axios error with a response and code `ECONNABORTED` maps
to the timeout message, before the status cases); and `makeGPTRequest`
never returns normally on a failed request: a network failure always
yields the mapped error, not a value. -/
theorem C1_error_messages :
    (∀ e, mapRequestError e = amendedErrorMessage e)
  ∧ (∀ cfg net messages opts e,
      net (buildRequest cfg messages opts) = .failure e →
      (makeGPTRequest cfg net messages opts).1
        = .error (mapRequestError e)) := by
  constructor
  · intro e
    cases e with
    | nonAxios => rfl
    | axios a =>
      obtain ⟨c, r⟩ := a
      cases r with
      | none => rfl
      | some resp => simp [mapRequestError, amendedErrorMessage]
  · intro cfg net messages opts e h
    simp [makeGPTRequest, h]

/-- C1 (witness): the amended mapping evaluated on the timeout error, and
error propagation on a concretely failing network. -/
theorem C1_error_messages_witness :
    mapRequestError econnEx = amendedErrorMessage econnEx
  ∧ (makeGPTRequest cfgEx failNetEx mEx translateOptions).1
      = .error "请求超时，请重试" := by
  constructor
  · exact C1_error_messages.1 econnEx
  · rw [C1_error_messages.2 cfgEx failNetEx mEx translateOptions econnEx rfl]
    rfl

/-- C6 (confirmed): one call of `makeGPTRequest` issues exactly one HTTP
request — the trace is the one built request, on success as on failure —
and a failing request propagates its mapped error without any second
attempt appearing in the trace. -/
theorem C6_no_retries (cfg : GPTConfig) (net : HTTPRequest → NetResult)
    (messages : List ChatMessage) (opts : RequestOptions) :
    (makeGPTRequest cfg net messages opts).2
        = [buildRequest cfg messages opts]
  ∧ (∀ e, net (buildRequest cfg messages opts) = .failure e →
      (makeGPTRequest cfg net messages opts).1
        = .error (mapRequestError e)) := by
  constructor
  · exact (makeGPTRequest_spec cfg net messages opts).1
  · intro e h
    simp [makeGPTRequest, h]

/-- C6 (witness): on a network that fails with the timeout error, the one
request is issued and the mapped error is returned. -/
theorem C6_no_retries_witness :
    (makeGPTRequest cfgEx failNetEx mEx translateOptions).2
        = [buildRequest cfgEx mEx translateOptions]
  ∧ (makeGPTRequest cfgEx failNetEx mEx translateOptions).1
      = .error (mapRequestError econnEx) :=
  ⟨(C6_no_retries cfgEx failNetEx mEx translateOptions).1,
   (C6_no_retries cfgEx failNetEx mEx translateOptions).2 econnEx rfl⟩

/-- C7 (confirmed): `syncScroll` gives the target pane the same relative
scroll position as the source pane, and applying the symmetric handler of
the other direction to the result returns the source pane to its own
scroll offset, whenever both panes have scrollable overflow. -/
theorem C7_sync_scroll (srcTop srcSH srcCH tgtSH tgtCH : ℚ)
    (hs : srcSH - srcCH ≠ 0) (ht : tgtSH - tgtCH ≠ 0) :
    syncScroll srcTop srcSH srcCH tgtSH tgtCH / (tgtSH - tgtCH)
        = srcTop / (srcSH - srcCH)
  ∧ syncScroll (syncScroll srcTop srcSH srcCH tgtSH tgtCH)
        tgtSH tgtCH srcSH srcCH = srcTop := by
  unfold syncScroll
  constructor
  · field_simp
    ring
  · field_simp
    ring

/-- C7 (witness): concrete pane metrics, evaluated. -/
theorem C7_sync_scroll_witness :
    syncScroll 30 200 100 400 100 / (400 - 100) = 30 / (200 - 100)
  ∧ syncScroll (syncScroll 30 200 100 400 100) 400 100 200 100 = 30 :=
  C7_sync_scroll 30 200 100 400 100 (by norm_num) (by norm_num)

/-- When the key is configured, `processText` always issues exactly the
one translation request, whatever the network does. -/
theorem processText_trace_spec (net : HTTPRequest → NetResult)
    (nowId nowTs text lang : String) (s : AppState)
    (hk : s.gptConfig.apiKey ≠ "") :
    (processText net nowId nowTs text lang s).trace
      = [buildRequest s.gptConfig (translateMessages lang text)
          translateOptions] := by
  obtain ⟨htr, hres⟩ :=
    makeGPTRequest_spec s.gptConfig net (translateMessages lang text)
      translateOptions
  rcases hres with ⟨d, _, hr⟩ | ⟨e, _, hr⟩
  · have hm : makeGPTRequest s.gptConfig net (translateMessages lang text)
        translateOptions
        = (.ok d, [buildRequest s.gptConfig (translateMessages lang text)
            translateOptions]) := by
      have hx := makeGPTRequest_eta s.gptConfig net
        (translateMessages lang text) translateOptions
      rw [hr, htr] at hx
      exact hx
    cases hv : validateGPTResponse d with
    | error m => simp [processText, hk, hm, hv]
    | ok t => simp [processText, hk, hm, hv]
  · have hm : makeGPTRequest s.gptConfig net (translateMessages lang text)
        translateOptions
        = (.error (mapRequestError e),
           [buildRequest s.gptConfig (translateMessages lang text)
            translateOptions]) := by
      have hx := makeGPTRequest_eta s.gptConfig net
        (translateMessages lang text) translateOptions
      rw [hr, htr] at hx
      exact hx
    simp [processText, hk, hm]

/-- C2 (counterexample): a successful `processText` run issues one HTTP
request, not three, so the claim that every pipeline invocation issues
exactly three requests is false. -/
theorem C2_counterexample :
    (processText okNetEx "1" "t0" "Hello" "fr" stEx).trace.length = 1
  ∧ ¬ ((processText okNetEx "1" "t0" "Hello" "fr" stEx).trace.length = 3) := by
  have h := processText_trace_spec okNetEx "1" "t0" "Hello" "fr" stEx
    (by decide)
  rw [h]
  exact ⟨rfl, by decide⟩

/-- C2 (amended): the pipeline is a linear sequence of sequential awaited
requests, but per invocation `processText` issues exactly one HTTP POST
(when the key is configured), and a successful `processFile` issues
exactly two, the OCR request first and the translation request second,
the latter built from the already-validated OCR output. -/
theorem C2_request_counts :
    (∀ (net : HTTPRequest → NetResult) (nowId nowTs text lang : String)
       (s : AppState), s.gptConfig.apiKey ≠ "" →
       (processText net nowId nowTs text lang s).trace
         = [buildRequest s.gptConfig (translateMessages lang text)
             translateOptions])
  ∧ (∀ (net : HTTPRequest → NetResult) (nowId nowTs : String)
       (file : ImageFile) (lang : String) (s : AppState)
       (record : Translation),
       (processFile net nowId nowTs file lang s).result = .ok record →
       ∃ img, compressImage file = .ok img
         ∧ (processFile net nowId nowTs file lang s).trace
             = [buildRequest s.gptConfig (ocrMessages img) ocrOptions,
                buildRequest s.gptConfig
                  (translateMessages lang record.originalText)
                  translateOptions]) := by
  constructor
  · exact fun net nowId nowTs text lang s hk =>
      processText_trace_spec net nowId nowTs text lang s hk
  · intro net nowId nowTs file lang s record h
    obtain ⟨img, d1, d2, hc, _, _, _, _, _, _, _, _, _, htr⟩ :=
      processFile_ok_spec net nowId nowTs file lang s record h
    exact ⟨img, hc, htr⟩

/-- C2 (witness): concrete runs — one request for a text translation, two
requests for a successful image translation. -/
theorem C2_request_counts_witness :
    (processText okNetEx "2" "t1" "Hi" "de" stEx).trace
        = [buildRequest stEx.gptConfig (translateMessages "de" "Hi")
            translateOptions]
  ∧ (processFile twoPhaseNet "1" "t0" fileEx "fr" stEx).trace.length = 2 := by
  constructor
  · exact C2_request_counts.1 okNetEx "2" "t1" "Hi" "de" stEx (by decide)
  · obtain ⟨img, _, htr⟩ := C2_request_counts.2 twoPhaseNet "1" "t0" fileEx
      "fr" stEx ⟨"1", "scan.png", "t0", "Ocr text", "Texte traduit", "fr"⟩
      (by decide)
    rw [htr]
    rfl

/-- C3 (confirmed): the persistence invariant — the `translations` and
`gptConfig` storage keys hold exactly the JSON serialisation of the
current in-memory state — is preserved by every state-updating operation
of the provider, and no operation writes any other storage key. -/
theorem C3_storage_sync (s : AppState) (h : persisted s) :
    (∀ t, persisted (addTranslation t s))
  ∧ (∀ id, persisted (removeTranslation id s))
  ∧ (∀ c, persisted (updateGPTConfig c s))
  ∧ (∀ k, k ≠ "translations" → k ≠ "gptConfig" → ∀ t id c,
        (addTranslation t s).storage k = s.storage k
      ∧ (removeTranslation id s).storage k = s.storage k
      ∧ (updateGPTConfig c s).storage k = s.storage k) := by
  obtain ⟨h1, h2⟩ := h
  refine ⟨?_, ?_, ?_, ?_⟩
  · intro t
    exact ⟨by simp [addTranslation, saveTranslationsEffect, setItem],
      by simp [addTranslation, saveTranslationsEffect, setItem, h2]⟩
  · intro id
    exact ⟨by simp [removeTranslation, saveTranslationsEffect, setItem],
      by simp [removeTranslation, saveTranslationsEffect, setItem, h2]⟩
  · intro c
    exact ⟨by simp [updateGPTConfig, saveConfigEffect, setItem, h1],
      by simp [updateGPTConfig, saveConfigEffect, setItem]⟩
  · intro k hk1 hk2 t id c
    refine ⟨?_, ?_, ?_⟩
    · simp [addTranslation, saveTranslationsEffect, setItem, hk1]
    · simp [removeTranslation, saveTranslationsEffect, setItem, hk1]
    · simp [updateGPTConfig, saveConfigEffect, setItem, hk2]

/-- C3 (witness): starting from a state whose storage mirrors its memory,
adding a record keeps the invariant, and an unrelated key is untouched. -/
theorem C3_storage_sync_witness :
    persisted (addTranslation trEx st0)
  ∧ (addTranslation trEx st0).storage "other" = st0.storage "other" := by
  have h0 : persisted st0 := ⟨by decide, by decide⟩
  exact ⟨(C3_storage_sync st0 h0).1 trEx,
    ((C3_storage_sync st0 h0).2.2.2 "other" (by decide) (by decide)
      trEx "x" cfgEx).1⟩

/-- C4 (confirmed): compression downscales by
`scale = min 1 (800 / max width height)`, keeps the aspect ratio, caps
both dimensions at 800, produces a JPEG, and the first request a
configured `processFile` run issues carries exactly this compressed image
— so compression completes before any HTTP request. -/
theorem C4_downscale (file : ImageFile) (img : CompressedImage)
    (hc : compressImage file = .ok img)
    (hpos : 0 < max file.width file.height) :
    img.mime = "image/jpeg"
  ∧ img.width = file.width * compressScale file.width file.height
  ∧ img.height = file.height * compressScale file.width file.height
  ∧ compressScale file.width file.height
      = min 1 (800 / max file.width file.height)
  ∧ img.width ≤ 800
  ∧ img.height ≤ 800
  ∧ img.width * file.height = img.height * file.width
  ∧ (∀ (net : HTTPRequest → NetResult) (nowId nowTs lang : String)
      (s : AppState), s.gptConfig.apiKey ≠ "" →
      (processFile net nowId nowTs file lang s).trace.head?
        = some (buildRequest s.gptConfig (ocrMessages img) ocrOptions)) := by
  have hc' := hc
  rw [compressImage] at hc'
  by_cases hsize : MAX_FILE_SIZE < file.size
  · rw [if_pos hsize] at hc'
    exact absurd hc' (by simp)
  · rw [if_neg hsize] at hc'
    simp only [] at hc'
    injection hc' with hrec
    have hM : max file.width file.height ≠ 0 := ne_of_gt hpos
    have hs0 : 0 ≤ compressScale file.width file.height :=
      le_min zero_le_one
        (div_nonneg (by norm_num [MAX_IMAGE_SIZE]) hpos.le)
    have hscale : compressScale file.width file.height
        ≤ 800 / max file.width file.height := by
      rw [compressScale, MAX_IMAGE_SIZE]
      exact min_le_right _ _
    have hcap : ∀ d : ℚ, d ≤ max file.width file.height →
        d * compressScale file.width file.height ≤ 800 := by
      intro d hd
      calc d * compressScale file.width file.height
          ≤ max file.width file.height
              * compressScale file.width file.height :=
            mul_le_mul_of_nonneg_right hd hs0
        _ ≤ max file.width file.height
              * (800 / max file.width file.height) :=
            mul_le_mul_of_nonneg_left hscale hpos.le
        _ = 800 := by field_simp
    refine ⟨?_, ?_, ?_, ?_, ?_, ?_, ?_, ?_⟩
    · rw [← hrec]
    · rw [← hrec]
    · rw [← hrec]
    · rw [compressScale, MAX_IMAGE_SIZE]
    · rw [← hrec]
      exact hcap file.width (le_max_left _ _)
    · rw [← hrec]
      exact hcap file.height (le_max_right _ _)
    · rw [← hrec]
      ring
    · intro net nowId nowTs lang s hk
      obtain ⟨rest, htr⟩ :=
        processFile_trace_head net nowId nowTs file lang s img hk hc
      rw [htr]
      rfl

/-- C4 (witness): a 1000 by 500 image is scaled by 4 / 5 to 800 by 400
and is sent to the OCR endpoint first. -/
theorem C4_downscale_witness :
    imgEx.mime = "image/jpeg"
  ∧ imgEx.width ≤ 800
  ∧ imgEx.height ≤ 800
  ∧ imgEx.width * fileEx.height = imgEx.height * fileEx.width
  ∧ (processFile twoPhaseNet "1" "t0" fileEx "fr" stEx).trace.head?
      = some (buildRequest stEx.gptConfig (ocrMessages imgEx) ocrOptions) := by
  have hc : compressImage fileEx = .ok imgEx := by
    rw [compressImage]
    norm_num [compressScale, MAX_IMAGE_SIZE, MAX_FILE_SIZE, JPEG_QUALITY,
      fileEx, imgEx]
  have h := C4_downscale fileEx imgEx hc (by norm_num [fileEx])
  exact ⟨h.1, h.2.2.2.2.1, h.2.2.2.2.2.1, h.2.2.2.2.2.2.1,
    h.2.2.2.2.2.2.2 twoPhaseNet "1" "t0" "fr" stEx (by decide)⟩

/-- C5 (confirmed): a successful `processFile` run first issues the OCR
request carrying the compressed image and only afterwards the translation
request whose user text is the validated OCR output; the returned record
has `originalText` equal to the validated OCR response, `translatedText`
equal to the validated translation response, and `targetLanguage` equal
to the selected language code. -/
theorem C5_ocr_then_translate (net : HTTPRequest → NetResult)
    (nowId nowTs : String) (file : ImageFile) (lang : String) (s : AppState)
    (record : Translation)
    (h : (processFile net nowId nowTs file lang s).result = .ok record) :
    ∃ img d1 d2,
      compressImage file = .ok img
      ∧ (processFile net nowId nowTs file lang s).trace
          = [buildRequest s.gptConfig (ocrMessages img) ocrOptions,
             buildRequest s.gptConfig
               (translateMessages lang record.originalText)
               translateOptions]
      ∧ net (buildRequest s.gptConfig (ocrMessages img) ocrOptions)
          = .success d1
      ∧ validateGPTResponse d1 = .ok record.originalText
      ∧ net (buildRequest s.gptConfig
            (translateMessages lang record.originalText) translateOptions)
          = .success d2
      ∧ validateGPTResponse d2 = .ok record.translatedText
      ∧ record.targetLanguage = lang := by
  obtain ⟨img, d1, d2, hc, hn1, hv1, _, hn2, hv2, _, _, _, htl, htr⟩ :=
    processFile_ok_spec net nowId nowTs file lang s record h
  exact ⟨img, d1, d2, hc, htr, hn1, hv1, hn2, hv2, htl⟩

/-- C5 (witness): a concrete successful run — OCR response first, then
the translation of the extracted text, assembled into the record. -/
theorem C5_ocr_then_translate_witness :
    (processFile twoPhaseNet "1" "t0" fileEx "fr" stEx).result
        = .ok ⟨"1", "scan.png", "t0", "Ocr text", "Texte traduit", "fr"⟩
  ∧ (processFile twoPhaseNet "1" "t0" fileEx "fr" stEx).trace
      = [buildRequest stEx.gptConfig (ocrMessages imgEx) ocrOptions,
         buildRequest stEx.gptConfig (translateMessages "fr" "Ocr text")
           translateOptions] := by
  have h : (processFile twoPhaseNet "1" "t0" fileEx "fr" stEx).result
      = .ok ⟨"1", "scan.png", "t0", "Ocr text", "Texte traduit", "fr"⟩ := by
    decide
  obtain ⟨img, d1, d2, hc, htr, _, _, _, _, _⟩ :=
    C5_ocr_then_translate twoPhaseNet "1" "t0" fileEx "fr" stEx
      ⟨"1", "scan.png", "t0", "Ocr text", "Texte traduit", "fr"⟩ h
  have himg : img = imgEx := by
    have h2 : compressImage fileEx = .ok imgEx := by
      rw [compressImage]
      norm_num [compressScale, MAX_IMAGE_SIZE, MAX_FILE_SIZE, JPEG_QUALITY,
        fileEx, imgEx]
    rw [hc] at h2
    injection h2
  rw [himg] at htr
  exact ⟨h, htr⟩

/-- C8 (confirmed): the pipeline operations are atomic with respect to the
history — every throwing run of `processText` or `processFile` leaves the
whole state (and with it the persisted blob) untouched, and a successful
run prepends exactly the returned record. -/
theorem C8_atomic_history (net : HTTPRequest → NetResult)
    (nowId nowTs text lang : String) (file : ImageFile) (s : AppState) :
    (∀ m, (processText net nowId nowTs text lang s).result = .error m →
        (processText net nowId nowTs text lang s).state = s)
  ∧ (∀ record,
        (processText net nowId nowTs text lang s).result = .ok record →
        (processText net nowId nowTs text lang s).state.translations
          = record :: s.translations)
  ∧ (∀ m, (processFile net nowId nowTs file lang s).result = .error m →
        (processFile net nowId nowTs file lang s).state = s)
  ∧ (∀ record,
        (processFile net nowId nowTs file lang s).result = .ok record →
        (processFile net nowId nowTs file lang s).state.translations
          = record :: s.translations) := by
  refine ⟨?_, ?_, ?_, ?_⟩
  · intro m hm
    rcases processText_state_spec net nowId nowTs text lang s with
      ⟨m2, hr, hs⟩ | ⟨r, hr, hs⟩
    · exact hs
    · rw [hm] at hr
      exact Except.noConfusion hr
  · intro record hrec
    rcases processText_state_spec net nowId nowTs text lang s with
      ⟨m2, hr, hs⟩ | ⟨r, hr, hs⟩
    · rw [hrec] at hr
      exact Except.noConfusion hr
    · rw [hrec] at hr
      injection hr with hr2
      rw [hs, ← hr2]
      simp [addTranslation, saveTranslationsEffect]
  · intro m hm
    rcases processFile_state_spec net nowId nowTs file lang s with
      ⟨m2, hr, hs⟩ | ⟨r, hr, hs⟩
    · exact hs
    · rw [hm] at hr
      exact Except.noConfusion hr
  · intro record hrec
    rcases processFile_state_spec net nowId nowTs file lang s with
      ⟨m2, hr, hs⟩ | ⟨r, hr, hs⟩
    · rw [hrec] at hr
      exact Except.noConfusion hr
    · rw [hrec] at hr
      injection hr with hr2
      rw [hs, ← hr2]
      simp [addTranslation, saveTranslationsEffect]

/-- C8 (witness): an unconfigured run leaves the state untouched; a
successful run prepends the new record. -/
theorem C8_atomic_history_witness :
    (processText okNetEx "9" "t9" "Hello" "fr" emptyKeySt).state = emptyKeySt
  ∧ (processText okNetEx "9" "t9" "Hello" "fr" stEx).state.translations
      = ⟨"9", "文本翻译", "t9", "Hello", "Bonjour", "fr"⟩
          :: stEx.translations := by
  constructor
  · exact (C8_atomic_history okNetEx "9" "t9" "Hello" "fr" fileEx
      emptyKeySt).1 "请先配置 API Key" (by decide)
  · exact (C8_atomic_history okNetEx "9" "t9" "Hello" "fr" fileEx stEx).2.1
      ⟨"9", "文本翻译", "t9", "Hello", "Bonjour", "fr"⟩ (by decide)

/-- C9 (confirmed): with a configured key, any file larger than 5MB makes
`processFile` throw the 5MB message before any network request and
without touching the state, while the upload gate only rejects files
above 20MB — so every file between the two limits passes the UI check and
fails in `compressImage`. -/
theorem C9_size_limits (net : HTTPRequest → NetResult)
    (nowId nowTs lang : String) (file : ImageFile) (s : AppState)
    (hkey : s.gptConfig.apiKey ≠ "")
    (hsize : 5 * 1024 * 1024 < file.size) :
    (processFile net nowId nowTs file lang s).result
        = .error "图片大小不能超过 5MB"
  ∧ (processFile net nowId nowTs file lang s).trace = []
  ∧ (processFile net nowId nowTs file lang s).state = s
  ∧ (file.size ≤ 20 * 1024 * 1024 → onDropSizeError file = none) := by
  have hc : compressImage file = .error "图片大小不能超过 5MB" := by
    rw [compressImage, if_pos]
    exact hsize
  refine ⟨?_, ?_, ?_, ?_⟩
  · simp [processFile, hkey, hc]
  · simp [processFile, hkey, hc]
  · simp [processFile, hkey, hc]
  · intro h20
    rw [onDropSizeError]
    exact if_neg (by omega)

/-- C9 (witness): a 6MB file is rejected by `processFile` with the 5MB
message yet accepted by the 20MB upload gate. -/
theorem C9_size_limits_witness :
    (processFile okNetEx "1" "t0" bigFileEx "fr" stEx).result
        = .error "图片大小不能超过 5MB"
  ∧ onDropSizeError bigFileEx = none := by
  have h := C9_size_limits okNetEx "1" "t0" "fr" bigFileEx stEx
    (by decide) (by decide)
  exact ⟨h.1, h.2.2.2 (by decide)⟩

/-- C10 (confirmed): `addTranslation` prepends and keeps the previous
entries in order; `removeTranslation` keeps exactly the entries with a
different id, in order (a sublist of the original in which every surviving
entry keeps a different id and every differently-keyed entry survives),
and removing an absent id changes nothing. -/
theorem C10_history_ops (t : Translation) (id : String) (s : AppState) :
    (addTranslation t s).translations = t :: s.translations
  ∧ (removeTranslation id s).translations
      = s.translations.filter (fun x => x.id ≠ id)
  ∧ List.Sublist (removeTranslation id s).translations s.translations
  ∧ (∀ x ∈ s.translations, x.id ≠ id →
       x ∈ (removeTranslation id s).translations)
  ∧ (∀ x ∈ (removeTranslation id s).translations, x.id ≠ id)
  ∧ ((∀ x ∈ s.translations, x.id ≠ id) →
       (removeTranslation id s).translations = s.translations) := by
  refine ⟨rfl, rfl, ?_, ?_, ?_, ?_⟩
  · exact List.filter_sublist s.translations
  · intro x hx hne
    simp [removeTranslation, saveTranslationsEffect, List.mem_filter]
    exact ⟨hx, hne⟩
  · intro x hx
    simp [removeTranslation, saveTranslationsEffect, List.mem_filter] at hx
    exact hx.2
  · intro h
    show s.translations.filter (fun x => x.id ≠ id) = s.translations
    rw [List.filter_eq_self]
    intro a ha
    simpa using h a ha

/-- C10 (witness): prepending to a concrete state, and removing an id not
present leaves the concrete list unchanged. -/
theorem C10_history_ops_witness :
    (addTranslation trEx st0).translations = trEx :: st0.translations
  ∧ (removeTranslation "z" stEx).translations = stEx.translations := by
  refine ⟨(C10_history_ops trEx "z" st0).1, ?_⟩
  exact (C10_history_ops trEx "z" stEx).2.2.2.2.2 (by decide)

end QuantumTranslator
